import Mathlib

/-!
# Verification of the CLI inventory manager (`src/main.py`)

Shallow embedding of the data model and operations of the inventory
program: item variants (Electronic, Food, Apparel), the `Inventory`
container (a Python `dict` keyed by item id, modelled as an association
list with Python's insert-or-overwrite semantics), and JSON persistence
(modelled as an abstract file state: absent, invalid JSON, or a list of
flat records with possibly-missing keys).

Python `int` is modelled as `Int`; `float` prices are modelled as `Rat`
(no claim depends on float rounding or rendering).  Exceptions are
modelled as `Except`/`Option String` results: a raised exception returns
the pre-state together with the error, matching the source where every
`raise` happens before any mutation.
-/

deriving instance DecidableEq for Except

namespace CliInventory

/-- The three item categories with their variant-specific fields
(`Electronic.brand`/`warranty`, `Food.expiry`, `Apparel.size`/`fabric`).
`expiry` is kept as the raw string exactly as the source stores it;
it is parsed only by `is_expired`. -/
inductive Variant where
  | electronic (brand : String) (warranty : Int)
  | food (expiry : String)
  | apparel (size : String) (fabric : String)
deriving DecidableEq, Repr

/-- The shared base fields of `Item.__init__` plus the variant tag. -/
structure Item where
  id : String
  name : String
  price : Rat
  quantity : Int
  variant : Variant
deriving DecidableEq, Repr

/-- `Item.restock`: `self.quantity += amount`. -/
def restock (amount : Int) (it : Item) : Item :=
  { it with quantity := it.quantity + amount }

/-- `Item.sell`: raises `ValueError("Insufficient stock.")` when
`amount > self.quantity`, otherwise `self.quantity -= amount`.  The raise
happens before the mutation, so on error the returned state is the
unchanged item. -/
def sell (amount : Int) (it : Item) : Item × Option String :=
  if amount > it.quantity then (it, some "Insufficient stock.")
  else ({ it with quantity := it.quantity - amount }, none)

/-- `Item.stock_value`: `self.price * self.quantity`. -/
def stock_value (it : Item) : Rat :=
  it.price * (it.quantity : Rat)

/-- A flat JSON object as produced/consumed by `to_dict` and
`load_from_file`.  Every key may be absent (`none`); values carry the
types the program writes for them. -/
structure Record where
  type : Option String := none
  id : Option String := none
  name : Option String := none
  price : Option Rat := none
  quantity : Option Int := none
  brand : Option String := none
  warranty : Option Int := none
  expiry : Option String := none
  size : Option String := none
  fabric : Option String := none
deriving DecidableEq, Repr

/-- `Electronic.to_dict` / `Food.to_dict` / `Apparel.to_dict`: the tagged
flat record for each variant. -/
def to_dict (it : Item) : Record :=
  match it.variant with
  | .electronic b w =>
      { type := some "Electronic", id := some it.id, name := some it.name,
        price := some it.price, quantity := some it.quantity,
        brand := some b, warranty := some w }
  | .food e =>
      { type := some "Food", id := some it.id, name := some it.name,
        price := some it.price, quantity := some it.quantity,
        expiry := some e }
  | .apparel sz fb =>
      { type := some "Apparel", id := some it.id, name := some it.name,
        price := some it.price, quantity := some it.quantity,
        size := some sz, fabric := some fb }

/-- The per-record dispatch inside `Inventory.load_from_file`: reads
`d["type"]` (a missing key raises `KeyError`, which the surrounding
`except (FileNotFoundError, json.JSONDecodeError)` does NOT catch),
builds the matching variant from the record's fields (again `KeyError`
when one is missing), and returns the `(d["id"], item)` pair to insert;
an unrecognized `type` value hits `continue`, i.e. `none`. -/
def parseRecord (d : Record) : Except String (Option (String × Item)) :=
  match d.type with
  | none => .error "KeyError: type"
  | some t =>
    if t = "Electronic" then
      match d.id, d.name, d.price, d.quantity, d.brand, d.warranty with
      | some i, some n, some p, some q, some b, some w =>
          .ok (some (i, ⟨i, n, p, q, .electronic b w⟩))
      | _, _, _, _, _, _ => .error "KeyError"
    else if t = "Food" then
      match d.id, d.name, d.price, d.quantity, d.expiry with
      | some i, some n, some p, some q, some e =>
          .ok (some (i, ⟨i, n, p, q, .food e⟩))
      | _, _, _, _, _ => .error "KeyError"
    else if t = "Apparel" then
      match d.id, d.name, d.price, d.quantity, d.size, d.fabric with
      | some i, some n, some p, some q, some sz, some fb =>
          .ok (some (i, ⟨i, n, p, q, .apparel sz fb⟩))
      | _, _, _, _, _, _ => .error "KeyError"
    else
      .ok none

/-- The item mapping `self.items`: a Python `dict` in insertion order. -/
def Items : Type := List (String × Item)

instance : DecidableEq Items := by unfold Items; infer_instance

/-- `self.items[k] = v` on a Python dict: overwrite in place when the key
exists (keeping its position), otherwise append at the end. -/
def dictInsert (k : String) (v : Item) : List (String × Item) → List (String × Item)
  | [] => [(k, v)]
  | (k1, v1) :: rest =>
      if k1 = k then (k1, v) :: rest else (k1, v1) :: dictInsert k v rest

/-- `k in self.items` / `self.items[k]` lookup on the Python dict. -/
def dictFind (k : String) : List (String × Item) → Option Item
  | [] => none
  | (k1, v1) :: rest => if k1 = k then some v1 else dictFind k rest

/-- What is on disk at the configured path.  `records` is a stored JSON
array of flat objects; `invalidJson` stands for any file content that
makes `json.load` raise `JSONDecodeError`. -/
inductive FileState where
  | absent
  | invalidJson
  | records (rs : List Record)
deriving DecidableEq, Repr

/-- The `Inventory` state: the id-keyed mapping plus the backing file's
current content. -/
structure Inventory where
  items : List (String × Item)
  file : FileState
deriving DecidableEq, Repr

/-- `Inventory.save_to_file`: rewrite the whole file with
`[v.to_dict() for v in self.items.values()]`. -/
def save_to_file (inv : Inventory) : Inventory :=
  { inv with file := .records (inv.items.map fun p => to_dict p.2) }

/-- The record loop of `load_from_file`: each record is parsed and
inserted under `d["id"]`; a `KeyError` from `parseRecord` propagates
(it is not among the caught exception classes). -/
def loadList : List Record → List (String × Item) → Except String (List (String × Item))
  | [], acc => .ok acc
  | d :: rs, acc =>
      match parseRecord d with
      | .error e => .error e
      | .ok none => loadList rs acc
      | .ok (some (k, v)) => loadList rs (dictInsert k v acc)

/-- `Inventory.load_from_file`, run on the constructor's empty mapping:
an absent file (`FileNotFoundError`) or invalid JSON (`JSONDecodeError`)
is caught and yields the empty mapping; otherwise the record loop runs.
An error value models an exception that escapes `load_from_file`. -/
def load_from_file : FileState → Except String (List (String × Item))
  | .absent => .ok []
  | .invalidJson => .ok []
  | .records rs => loadList rs []

/-- `Inventory.add_item`: raise `ValueError("Item ID already exists.")`
when the id is present (before any mutation), otherwise insert and
`save_to_file`. -/
def add_item (it : Item) (inv : Inventory) : Inventory × Option String :=
  if (dictFind it.id inv.items).isSome then
    (inv, some "Item ID already exists.")
  else
    (save_to_file { inv with items := dictInsert it.id it inv.items }, none)

/-- `Inventory.sell_item`: nothing at all happens when the id is absent;
otherwise the item's `sell` runs (its exception propagates with no state
change and no save), and on success the file is rewritten. -/
def sell_item (id : String) (qty : Int) (inv : Inventory) : Inventory × Option String :=
  match dictFind id inv.items with
  | none => (inv, none)
  | some it =>
      match sell qty it with
      | (_, some e) => (inv, some e)
      | (it2, none) =>
          (save_to_file { inv with items := dictInsert id it2 inv.items }, none)

/-- A calendar date as compared by `datetime.date`. -/
structure Date where
  year : Nat
  month : Nat
  day : Nat
deriving DecidableEq, Repr

/-- Gregorian leap-year rule, as used by `datetime` day-of-month checks. -/
def isLeap (y : Nat) : Bool :=
  y % 4 == 0 && (y % 100 != 0 || y % 400 == 0)

def daysInMonth (y m : Nat) : Nat :=
  if m == 2 then (if isLeap y then 29 else 28)
  else if m == 4 || m == 6 || m == 9 || m == 11 then 30
  else 31

/-- `datetime.date` comparison: lexicographic on (year, month, day). -/
def dateBefore (a b : Date) : Bool :=
  a.year.blt b.year ||
    (a.year == b.year &&
      (a.month.blt b.month || (a.month == b.month && a.day.blt b.day)))

/-- Split a character list at each `-`, keeping empty groups (the
behaviour of splitting a string on a single-character separator). -/
def splitDash : List Char → List (List Char)
  | [] => [[]]
  | c :: rest =>
      if c = '-' then [] :: splitDash rest
      else
        match splitDash rest with
        | [] => [[c]]
        | g :: gs => (c :: g) :: gs

/-- Value of a non-empty all-digit group; `none` otherwise. -/
def digitsToNat (cs : List Char) : Option Nat :=
  if cs ≠ [] ∧ cs.all Char.isDigit then
    some (cs.foldl (fun n c => n * 10 + (c.toNat - 48)) 0)
  else none

/-- `datetime.strptime(s, "%Y-%m-%d").date()`: three dash-separated
all-digit components; CPython's `_strptime` regex for `%Y` is exactly
four digits, while `%m`/`%d` take one or two; the matched values must
then survive the `datetime` constructor: year in 1..9999, month 1..12,
day valid for the month.  Anything else raises `ValueError` (`none`
here). -/
def parseDate (s : String) : Option Date :=
  match splitDash s.toList with
  | [ys, ms, ds] =>
      match digitsToNat ys, digitsToNat ms, digitsToNat ds with
      | some y, some m, some d =>
          if ys.length = 4 ∧ ms.length ≤ 2 ∧ ds.length ≤ 2 ∧
              1 ≤ y ∧ y ≤ 9999 ∧ 1 ≤ m ∧ m ≤ 12 ∧ 1 ≤ d ∧ d ≤ daysInMonth y m
          then some ⟨y, m, d⟩ else none
      | _, _, _ => none
  | _ => none

/-- `Food.is_expired` on the raw expiry string, with the current date
passed explicitly in place of `datetime.now().date()`: parse the expiry
and test `< today`; a malformed expiry raises `ValueError`. -/
def is_expired (today : Date) (expiry : String) : Except String Bool :=
  match parseDate expiry with
  | none => .error "ValueError: time data does not match format"
  | some d => .ok (dateBefore d today)

/-- Rendering of the numeric price inside the f-strings.  Python prints
the `float` repr; no claim depends on the digits, so a fixed exact
rendering of the rational stands in for it. -/
def showRat (q : Rat) : String :=
  toString q.num ++ "/" ++ toString q.den

/-- `describe` of each variant, the current date passed explicitly
(`Food.describe` calls `is_expired`, whose `ValueError` propagates). -/
def describe (today : Date) (it : Item) : Except String String :=
  match it.variant with
  | .electronic b w =>
      .ok ("[Electronics] " ++ it.name ++ " | Brand: " ++ b ++
        " | Warranty: " ++ toString w ++ "yrs | Price: $" ++ showRat it.price ++
        " | Stock: " ++ toString it.quantity)
  | .food e =>
      match is_expired today e with
      | .error err => .error err
      | .ok b =>
          .ok ("[Food] " ++ it.name ++ " | Expiry: " ++ e ++
            " (" ++ (if b then "Expired" else "Fresh") ++ ") | Price: $" ++
            showRat it.price ++ " | Stock: " ++ toString it.quantity)
  | .apparel sz fb =>
      .ok ("[Apparel] " ++ it.name ++ " | Size: " ++ sz ++ " | Fabric: " ++ fb ++
        " | Price: $" ++ showRat it.price ++ " | Stock: " ++ toString it.quantity)

/-- The removal test of `remove_expired`'s dict comprehension:
`isinstance(v, Food) and v.is_expired()`. -/
def foodExpiredFlag (today : Date) (it : Item) : Except String Bool :=
  match it.variant with
  | .food e => is_expired today e
  | _ => .ok false

/-- The dict comprehension of `Inventory.remove_expired`: keep the
entries whose removal test is false; a `ValueError` from any entry
aborts the whole comprehension. -/
def keepItems (today : Date) : List (String × Item) → Except String (List (String × Item))
  | [] => .ok []
  | (k, v) :: rest =>
      match foodExpiredFlag today v with
      | .error e => .error e
      | .ok true => keepItems today rest
      | .ok false =>
          match keepItems today rest with
          | .error e => .error e
          | .ok kept => .ok ((k, v) :: kept)

/-- `Inventory.remove_expired`: rebuild the mapping without expired Food
and save; on a `ValueError` the mapping is not reassigned and nothing is
saved (the exception propagates). -/
def remove_expired (today : Date) (inv : Inventory) : Inventory × Option String :=
  match keepItems today inv.items with
  | .error e => (inv, some e)
  | .ok items2 => (save_to_file { inv with items := items2 }, none)

/-- Python `str.lower` (ASCII case mapping suffices for the claims). -/
def pyLower (s : String) : String :=
  ⟨s.data.map Char.toLower⟩

/-- Helper for Python's `in` on strings: does `s` start with `sub`? -/
def startsWithL : List Char → List Char → Bool
  | [], _ => true
  | _ :: _, [] => false
  | a :: as, b :: bs => a == b && startsWithL as bs

/-- Helper for Python's `in` on strings: does `s` contain `sub`
contiguously at some position? -/
def hasSubL (sub : List Char) : List Char → Bool
  | [] => startsWithL sub []
  | c :: rest => startsWithL sub (c :: rest) || hasSubL sub rest

/-- Python's `sub in s` on strings: contiguous substring test. -/
def pyIn (sub s : String) : Bool :=
  hasSubL sub.toList s.toList

/-- The body of `Inventory.search_by_name`:
`[v.describe() for v in self.items.values() if term.lower() in v.name.lower()]`,
in iteration order; the condition is evaluated first, so `describe` (and
its possible `ValueError`) only runs for matching items. -/
def searchList (today : Date) (term : String) : List (String × Item) → Except String (List String)
  | [] => .ok []
  | (_, v) :: rest =>
      if pyIn (pyLower term) (pyLower v.name) then
        match describe today v with
        | .error e => .error e
        | .ok s =>
            match searchList today term rest with
            | .error e => .error e
            | .ok l => .ok (s :: l)
      else searchList today term rest

/-- `Inventory.search_by_name`. -/
def search_by_name (today : Date) (term : String) (inv : Inventory) : Except String (List String) :=
  searchList today term inv.items

/-! ### Spec-side predicates and helpers used by the theorem statements -/

/-- The spec's invariant: every held item has a non-negative quantity. -/
def AllNonneg (inv : Inventory) : Prop :=
  ∀ p ∈ inv.items, 0 ≤ p.2.quantity

instance (inv : Inventory) : Decidable (AllNonneg inv) := by
  unfold AllNonneg; infer_instance

/-- Well-formedness of an item's expiry: a Food item's expiry string is a
parseable `%Y-%m-%d` date (non-Food items are unconstrained). -/
def expiryOkB (it : Item) : Bool :=
  match it.variant with
  | .food e => (parseDate e).isSome
  | _ => true

/-- Spec-side removal test: the item is a Food whose (well-formed) expiry
date lies strictly before `today`. -/
def isExpiredFood (today : Date) (it : Item) : Bool :=
  match it.variant with
  | .food e =>
      match parseDate e with
      | some d => dateBefore d today
      | none => false
  | _ => false

/-- The `(id, item)` pair a record contributes to the mapping, when its
parse neither raises nor is skipped. -/
def goodPair (d : Record) : Option (String × Item) :=
  match parseRecord d with
  | .ok (some p) => some p
  | _ => none

/-- "The later record in the file wins": the value bound to `id` after
inserting `ps` in order into a map where `id` was bound to `fallback`. -/
def lastWins (ps : List (String × Item)) (id : String) (fallback : Option Item) : Option Item :=
  match ps.reverse.find? (fun p => p.1 == id) with
  | some p => some p.2
  | none => fallback

/-! ### Concrete fixtures for witnesses and counterexamples -/

def itE : Item := ⟨"E1", "TV", 100, 5, .electronic "BrandX" 2⟩

def itFpast : Item := ⟨"F1", "Old Milk", 2, 10, .food "2020-01-01"⟩

def itFfuture : Item := ⟨"F2", "Cheese", 3, 4, .food "2030-01-01"⟩

def itA : Item := ⟨"A1", "Shirt", 20, 7, .apparel "M" "Cotton"⟩

def itMilk : Item := ⟨"F9", "Whole Milk", 3, 10, .food "2030-01-01"⟩

def itApparel1 : Item := ⟨"A", "First", 1, 1, .apparel "S" "Wool"⟩

def itApparel2 : Item := ⟨"A", "Second", 2, 2, .apparel "M" "Silk"⟩

def today0 : Date := ⟨2025, 1, 1⟩

def inv0 : Inventory := ⟨[("E1", itE)], .absent⟩

def invTwo : Inventory := ⟨[("E1", itE), ("F2", itFfuture)], .absent⟩

def invMix : Inventory := ⟨[("F1", itFpast), ("F2", itFfuture), ("E1", itE)], .absent⟩

def invMilk : Inventory := ⟨[("F9", itMilk)], .absent⟩

/-- A stored record with no `"type"` key at all. -/
def recNoType : Record :=
  { id := some "X1", name := some "Thing", price := some 1, quantity := some 1 }

/-- A stored record whose `"type"` value is recognized by no branch. -/
def recU : Record := { type := some "Gadget" }

def recA1 : Record := to_dict itApparel1

def recA2 : Record := to_dict itApparel2

/-! ### Helper lemmas -/

theorem dictFind_dictInsert (k j : String) (v : Item) (m : List (String × Item)) :
    dictFind j (dictInsert k v m) = if j = k then some v else dictFind j m := by
  induction m with
  | nil =>
      by_cases h : j = k
      · subst h; simp [dictInsert, dictFind]
      · simp [dictInsert, dictFind, h, Ne.symm h]
  | cons p rest ih =>
      obtain ⟨k1, v1⟩ := p
      by_cases h1 : k1 = k
      · subst h1
        by_cases h2 : j = k1
        · subst h2; simp [dictInsert, dictFind]
        · simp [dictInsert, dictFind, h2, Ne.symm h2]
      · by_cases h2 : k1 = j
        · subst h2
          simp [dictInsert, dictFind, h1, Ne.symm h1]
        · simp [dictInsert, dictFind, h1, h2, ih]

theorem mem_dictInsert (p : String × Item) (k : String) (v : Item) (m : List (String × Item))
    (hp : p ∈ dictInsert k v m) : p = (k, v) ∨ p ∈ m := by
  induction m with
  | nil => simpa [dictInsert] using hp
  | cons q rest ih =>
      obtain ⟨k1, v1⟩ := q
      by_cases h : k1 = k
      · subst h
        rcases (List.mem_cons.1 (by simpa [dictInsert] using hp)) with h1 | h1
        · exact Or.inl (by simpa using h1)
        · exact Or.inr (List.mem_cons_of_mem _ h1)
      · rcases (List.mem_cons.1 (by simpa [dictInsert, h] using hp)) with h1 | h1
        · exact Or.inr (by simp [h1])
        · rcases ih h1 with h2 | h2
          · exact Or.inl h2
          · exact Or.inr (List.mem_cons_of_mem _ h2)

theorem dictFind_mem (k : String) (v : Item) (m : List (String × Item))
    (h : dictFind k m = some v) : (k, v) ∈ m := by
  induction m with
  | nil => simp [dictFind] at h
  | cons q rest ih =>
      obtain ⟨k1, v1⟩ := q
      by_cases h1 : k1 = k
      · subst h1
        have h2 : v1 = v := by simpa [dictFind] using h
        subst h2; exact List.mem_cons_self _ _
      · exact List.mem_cons_of_mem _ (ih (by simpa [dictFind, h1] using h))

theorem sell_quantity_nonneg (a : Int) (it : Item) (h : 0 ≤ it.quantity) :
    0 ≤ (sell a it).1.quantity := by
  unfold sell
  by_cases ha : a > it.quantity
  · simpa [ha] using h
  · simp only [ha, if_false]
    omega

theorem keepItems_eq_filter (today : Date) (m : List (String × Item))
    (h : ∀ p ∈ m, expiryOkB p.2 = true) :
    keepItems today m = .ok (m.filter fun p => ! isExpiredFood today p.2) := by
  induction m with
  | nil => rfl
  | cons p rest ih =>
      obtain ⟨k, v⟩ := p
      have hv : expiryOkB v = true := h (k, v) (List.mem_cons_self _ _)
      have hrest := ih (fun q hq => h q (List.mem_cons_of_mem _ hq))
      cases hvv : v.variant with
      | food e =>
          have hs : (parseDate e).isSome := by simpa [expiryOkB, hvv] using hv
          obtain ⟨d, hd⟩ := Option.isSome_iff_exists.1 hs
          by_cases hb : dateBefore d today = true
          · simp [keepItems, foodExpiredFlag, hvv, is_expired, hd, hb, hrest,
              List.filter, isExpiredFood]
          · simp [keepItems, foodExpiredFlag, hvv, is_expired, hd, hb, hrest,
              List.filter, isExpiredFood]
      | electronic b w =>
          simp [keepItems, foodExpiredFlag, hvv, hrest, List.filter, isExpiredFood]
      | apparel sz fb =>
          simp [keepItems, foodExpiredFlag, hvv, hrest, List.filter, isExpiredFood]

theorem keepItems_subset (today : Date) (m l : List (String × Item))
    (h : keepItems today m = .ok l) : ∀ p ∈ l, p ∈ m := by
  induction m generalizing l with
  | nil =>
      simp only [keepItems] at h
      cases h; simp
  | cons q rest ih =>
      obtain ⟨k, v⟩ := q
      simp only [keepItems] at h
      cases hf : foodExpiredFlag today v with
      | error e => rw [hf] at h; cases h
      | ok b =>
          rw [hf] at h
          cases b with
          | true =>
              intro p hp
              exact List.mem_cons_of_mem _ (ih l h p hp)
          | false =>
              cases hr : keepItems today rest with
              | error e => rw [hr] at h; cases h
              | ok kept =>
                  rw [hr] at h
                  cases h
                  intro p hp
                  rcases List.mem_cons.1 hp with h1 | h1
                  · exact h1 ▸ List.mem_cons_self _ _
                  · exact List.mem_cons_of_mem _ (ih kept hr p h1)

theorem startsWithL_iff (a b : List Char) :
    startsWithL a b = true ↔ ∃ r, b = a ++ r := by
  induction a generalizing b with
  | nil => simp [startsWithL]
  | cons x xs ih =>
      cases b with
      | nil =>
          constructor
          · intro h; simp [startsWithL] at h
          · rintro ⟨r, hr⟩
            exact absurd hr.symm (List.cons_ne_nil _ _)
      | cons y ys =>
          simp only [startsWithL, Bool.and_eq_true, beq_iff_eq, ih, List.cons_append]
          constructor
          · rintro ⟨rfl, r, rfl⟩; exact ⟨r, rfl⟩
          · rintro ⟨r, hr⟩
            injection hr with h1 h2
            exact ⟨h1.symm, r, h2⟩

theorem hasSubL_iff (sub s : List Char) :
    hasSubL sub s = true ↔ ∃ l r, s = l ++ sub ++ r := by
  induction s with
  | nil =>
      constructor
      · intro h
        obtain ⟨r, hr⟩ := (startsWithL_iff sub []).1 (by simpa [hasSubL] using h)
        exact ⟨[], r, by simpa using hr⟩
      · rintro ⟨l, r, hr⟩
        have h0 : l ++ (sub ++ r) = [] := by rw [← List.append_assoc]; exact hr.symm
        rcases List.append_eq_nil.1 h0 with ⟨hl, h1⟩
        rcases List.append_eq_nil.1 h1 with ⟨hsub, hrr⟩
        subst hl; subst hsub
        simp [hasSubL, startsWithL]
  | cons c rest ih =>
      simp only [hasSubL, Bool.or_eq_true, startsWithL_iff, ih]
      constructor
      · rintro (⟨r, hr⟩ | ⟨l, r, hr⟩)
        · exact ⟨[], r, by simpa using hr⟩
        · exact ⟨c :: l, r, by simp [hr]⟩
      · rintro ⟨l, r, hr⟩
        cases l with
        | nil => exact Or.inl ⟨r, by simpa using hr⟩
        | cons x l2 =>
            refine Or.inr ⟨l2, r, ?_⟩
            have h2 : c :: rest = x :: (l2 ++ sub ++ r) := by simpa using hr
            injection h2 with _ h3

theorem find?_append_or {α : Type} (p : α → Bool) (l1 l2 : List α) :
    (l1 ++ l2).find? p =
      match l1.find? p with
      | some a => some a
      | none => l2.find? p := by
  induction l1 with
  | nil => simp
  | cons a t ih =>
      by_cases h : p a
      · simp [List.find?, h]
      · simp [List.find?, h, ih]

theorem loadList_lastWins (rs : List Record) (acc m : List (String × Item))
    (h : loadList rs acc = .ok m) (id : String) :
    dictFind id m = lastWins (rs.filterMap goodPair) id (dictFind id acc) := by
  induction rs generalizing acc with
  | nil =>
      simp only [loadList] at h
      cases h
      simp [lastWins]
  | cons d rs ih =>
      simp only [loadList] at h
      cases hp : parseRecord d with
      | error e => rw [hp] at h; cases h
      | ok o =>
          rw [hp] at h
          cases o with
          | none =>
              have hg : goodPair d = none := by simp [goodPair, hp]
              simpa [List.filterMap_cons, hg] using ih acc h
          | some kv =>
              obtain ⟨k, v⟩ := kv
              have hg : goodPair d = some (k, v) := by simp [goodPair, hp]
              have ih2 := ih (dictInsert k v acc) h
              rw [dictFind_dictInsert] at ih2
              rw [ih2]
              simp only [List.filterMap_cons, hg]
              unfold lastWins
              rw [List.reverse_cons, find?_append_or]
              cases hfind : (rs.filterMap goodPair).reverse.find? (fun p => p.1 == id) with
              | some q => rfl
              | none =>
                  by_cases hik : id = k
                  · subst hik; simp [List.find?]
                  · have hb : (k == id) = false := by
                      simp only [beq_eq_false_iff_ne]
                      exact Ne.symm hik
                    simp [List.find?, hb, hik]

/-! ### Claim theorems -/

/-- C1: for every variant (Electronic, Food, Apparel) and every
well-formed item, serializing via `to_dict` and reconstructing via the
load-side dispatch on the `type` discriminator yields the original item
(all shared and variant-specific fields equal), keyed by its id. -/
theorem roundtrip_to_dict_parseRecord (it : Item) :
    parseRecord (to_dict it) = .ok (some (it.id, it)) := by
  obtain ⟨i, n, p, q, v⟩ := it
  cases v <;> rfl

/-- C3: `sell amount` fails (with the insufficient-stock error) exactly
when `amount > quantity`; on failure the item is unchanged, and when
`amount ≤ quantity` the quantity is decremented by `amount`. -/
theorem sell_spec (amount : Int) (it : Item) :
    ((sell amount it).2.isSome ↔ amount > it.quantity) ∧
    (amount > it.quantity → sell amount it = (it, some "Insufficient stock.")) ∧
    (amount ≤ it.quantity →
      sell amount it = ({ it with quantity := it.quantity - amount }, none)) := by
  by_cases h : amount > it.quantity
  · simp [sell, h, not_le.2 h]
  · simp [sell, h, not_lt.1 h]

theorem sell_spec_witness :
    sell 7 itE = (itE, some "Insufficient stock.") ∧
    sell 3 itE = ({ itE with quantity := itE.quantity - 3 }, none) :=
  ⟨(sell_spec 7 itE).2.1 (by decide), (sell_spec 3 itE).2.2 (by decide)⟩

/-- C8: whenever `sell q` succeeds (`q ≤ quantity`), following it with
`restock q` restores the original item, in particular its quantity. -/
theorem sell_restock_roundtrip (q : Int) (it : Item) (h : q ≤ it.quantity) :
    restock q (sell q it).1 = it := by
  obtain ⟨i, n, p, qty, v⟩ := it
  simp only [sell, restock] at *
  rw [if_neg (not_lt.2 h)]
  simp only [Item.mk.injEq, and_true, true_and]
  omega

theorem sell_restock_roundtrip_witness : restock 3 (sell 3 itE).1 = itE :=
  sell_restock_roundtrip 3 itE (by decide)

/-- C7: `sell_item` on an id that is not a key of the mapping is a
complete no-op for any quantity: no error, the mapping and every item
unchanged, and the backing file not rewritten. -/
theorem sell_item_absent_noop (id : String) (qty : Int) (inv : Inventory)
    (h : dictFind id inv.items = none) :
    sell_item id qty inv = (inv, none) := by
  simp [sell_item, h]

theorem sell_item_absent_noop_witness : sell_item "ZZ" 5 inv0 = (inv0, none) :=
  sell_item_absent_noop "ZZ" 5 inv0 (by decide)

/-- C4: `add_item` fails with the duplicate-id error when `item.id` is
already a key, leaving the mapping and the file untouched; otherwise it
inserts the item under its id and rewrites the file with the full new
collection. -/
theorem add_item_spec (it : Item) (inv : Inventory) :
    ((dictFind it.id inv.items).isSome →
      add_item it inv = (inv, some "Item ID already exists.")) ∧
    (dictFind it.id inv.items = none →
      add_item it inv =
        ({ items := dictInsert it.id it inv.items,
           file := .records ((dictInsert it.id it inv.items).map fun p => to_dict p.2) },
         none)) := by
  constructor
  · intro h
    simp [add_item, h]
  · intro h
    simp [add_item, h, save_to_file]

theorem add_item_spec_witness :
    add_item itE inv0 = (inv0, some "Item ID already exists.") ∧
    add_item itA inv0 =
      ({ items := dictInsert itA.id itA inv0.items,
         file := .records ((dictInsert itA.id itA inv0.items).map fun p => to_dict p.2) },
       none) :=
  ⟨(add_item_spec itE inv0).1 (by decide), (add_item_spec itA inv0).2 (by decide)⟩

/-- C10: `restock` and `sell` change only the quantity field (id, name,
price and all variant-specific fields are untouched), and `sell_item` on
a present id changes at most the quantity of the entry keyed by that id,
leaving every other entry of the mapping unchanged. -/
theorem restock_sell_frame (a qty : Int) (id : String) (it : Item) (inv : Inventory) :
    ((restock a it).id = it.id ∧ (restock a it).name = it.name ∧
      (restock a it).price = it.price ∧ (restock a it).variant = it.variant) ∧
    ((sell a it).1.id = it.id ∧ (sell a it).1.name = it.name ∧
      (sell a it).1.price = it.price ∧ (sell a it).1.variant = it.variant) ∧
    (∀ it0, dictFind id inv.items = some it0 →
      (∀ k, k ≠ id → dictFind k (sell_item id qty inv).1.items = dictFind k inv.items) ∧
      (∃ it2, dictFind id (sell_item id qty inv).1.items = some it2 ∧
        it2.id = it0.id ∧ it2.name = it0.name ∧ it2.price = it0.price ∧
        it2.variant = it0.variant)) := by
  refine ⟨⟨rfl, rfl, rfl, rfl⟩, ?_, ?_⟩
  · unfold sell
    by_cases h : a > it.quantity
    · rw [if_pos h]; exact ⟨rfl, rfl, rfl, rfl⟩
    · rw [if_neg h]; exact ⟨rfl, rfl, rfl, rfl⟩
  · intro it0 h0
    by_cases h : qty > it0.quantity
    · have hcase : sell_item id qty inv = (inv, some "Insufficient stock.") := by
        unfold sell_item
        rw [h0]
        simp [sell, h]
      rw [hcase]
      exact ⟨fun k _ => rfl, ⟨it0, h0, rfl, rfl, rfl, rfl⟩⟩
    · have hcase : sell_item id qty inv =
          (save_to_file { inv with
            items := dictInsert id { it0 with quantity := it0.quantity - qty } inv.items },
           none) := by
        unfold sell_item
        rw [h0]
        simp [sell, h]
      rw [hcase]
      constructor
      · intro k hk
        simp [save_to_file, dictFind_dictInsert, hk]
      · refine ⟨{ it0 with quantity := it0.quantity - qty }, ?_, rfl, rfl, rfl, rfl⟩
        simp [save_to_file, dictFind_dictInsert]

theorem restock_sell_frame_witness :
    (restock 2 itE).name = itE.name ∧
    dictFind "F2" (sell_item "E1" 2 invTwo).1.items = dictFind "F2" invTwo.items := by
  have h := restock_sell_frame 2 2 "E1" itE invTwo
  exact ⟨h.1.2.1, (h.2.2 itE (by decide)).1 "F2" (by decide)⟩

/-- C5 counterexample: `restock` is among the listed operations and its
amount is unconstrained, but a negative restock amount drives a
non-negative quantity below zero: `itE` has quantity `5 ≥ 0`, and
`restock (-6)` leaves it at `-1 < 0`. -/
theorem restock_negative_breaks_nonneg :
    0 ≤ itE.quantity ∧ (restock (-6) itE).quantity < 0 := by decide

/-- C5 (amended): quantity non-negativity is preserved by `restock` for
non-negative amounts, by `sell` for every amount (the guard blocks
`amount > quantity`), by `sell_item` for every argument, by `add_item`
whenever the added item's quantity is non-negative, and by
`remove_expired`. -/
theorem quantity_nonneg_invariant :
    (∀ (a : Int) (it : Item), 0 ≤ a → 0 ≤ it.quantity → 0 ≤ (restock a it).quantity) ∧
    (∀ (a : Int) (it : Item), 0 ≤ it.quantity → 0 ≤ (sell a it).1.quantity) ∧
    (∀ (id : String) (qty : Int) (inv : Inventory),
      AllNonneg inv → AllNonneg (sell_item id qty inv).1) ∧
    (∀ (it : Item) (inv : Inventory),
      0 ≤ it.quantity → AllNonneg inv → AllNonneg (add_item it inv).1) ∧
    (∀ (today : Date) (inv : Inventory),
      AllNonneg inv → AllNonneg (remove_expired today inv).1) := by
  refine ⟨?_, sell_quantity_nonneg, ?_, ?_, ?_⟩
  · intro a it ha hq
    simp only [restock]
    omega
  · intro id qty inv hinv
    cases hfind : dictFind id inv.items with
    | none =>
        have hcase : sell_item id qty inv = (inv, none) := by
          unfold sell_item; rw [hfind]
        rw [hcase]; exact hinv
    | some it0 =>
        have h0 : 0 ≤ it0.quantity := hinv (id, it0) (dictFind_mem id it0 inv.items hfind)
        have hq := sell_quantity_nonneg qty it0 h0
        cases hs : sell qty it0 with
        | mk it2 err =>
            rw [hs] at hq
            cases err with
            | some e =>
                have hcase : sell_item id qty inv = (inv, some e) := by
                  unfold sell_item; rw [hfind]; simp [hs]
                rw [hcase]; exact hinv
            | none =>
                have hcase : sell_item id qty inv =
                    (save_to_file { inv with items := dictInsert id it2 inv.items },
                     none) := by
                  unfold sell_item; rw [hfind]; simp [hs]
                rw [hcase]
                intro p hp
                simp only [save_to_file] at hp
                rcases mem_dictInsert p id it2 inv.items hp with h1 | h1
                · rw [h1]; exact hq
                · exact hinv p h1
  · intro it inv hq hinv
    unfold add_item
    cases hfind : dictFind it.id inv.items with
    | some it1 => simpa using hinv
    | none =>
        simp only [Option.isSome_none, Bool.false_eq_true, if_false]
        intro p hp
        simp only [save_to_file] at hp
        rcases mem_dictInsert p it.id it inv.items hp with h1 | h1
        · rw [h1]; exact hq
        · exact hinv p h1
  · intro today inv hinv
    unfold remove_expired
    cases hk : keepItems today inv.items with
    | error e => exact hinv
    | ok items2 =>
        intro p hp
        simp only [save_to_file] at hp
        exact hinv p (keepItems_subset today inv.items items2 hk p hp)

theorem quantity_nonneg_invariant_witness :
    0 ≤ (restock 2 itE).quantity ∧ AllNonneg (sell_item "E1" 2 inv0).1 :=
  ⟨quantity_nonneg_invariant.1 2 itE (by decide) (by decide),
   quantity_nonneg_invariant.2.2.1 "E1" 2 inv0 (by decide)⟩

/-- C6: on an inventory whose Food expiries are well-formed dates,
`remove_expired` keeps exactly the entries that are not expired Food
(non-Food items and non-expired Food items, unchanged and in order),
reports no error, and rewrites the file with the new collection even
when nothing was removed. -/
theorem remove_expired_spec (today : Date) (inv : Inventory)
    (h : ∀ p ∈ inv.items, expiryOkB p.2 = true) :
    remove_expired today inv =
      ({ items := inv.items.filter (fun p => ! isExpiredFood today p.2),
         file := .records ((inv.items.filter (fun p => ! isExpiredFood today p.2)).map
           fun p => to_dict p.2) }, none) := by
  unfold remove_expired
  rw [keepItems_eq_filter today inv.items h]
  rfl

theorem remove_expired_spec_witness :
    remove_expired today0 invMix =
      ({ items := [("F2", itFfuture), ("E1", itE)],
         file := .records [to_dict itFfuture, to_dict itE] }, none) := by
  have h := remove_expired_spec today0 invMix (by decide)
  exact h.trans (by decide)

/-- C2 counterexample: a record with no `"type"` key is not silently
skipped; `load_from_file` raises an uncaught `KeyError` instead of
producing the empty inventory. -/
theorem load_missing_type_raises :
    load_from_file (.records [recNoType]) = .error "KeyError: type" ∧
    load_from_file (.records [recNoType]) ≠ .ok [] := by decide

/-- C2 (amended): an absent file or invalid JSON yields the empty
inventory with no error; a record whose `type` value is present but
unrecognized is silently skipped; a record with no `type` key raises an
uncaught `KeyError`; and on a successful load the value bound to each id
is the one contributed by the last record in the file with that id. -/
theorem load_from_file_spec :
    (load_from_file .absent = .ok [] ∧ load_from_file .invalidJson = .ok []) ∧
    (∀ (d : Record) (rs : List Record) (acc : List (String × Item)) (t : String),
      d.type = some t → t ≠ "Electronic" → t ≠ "Food" → t ≠ "Apparel" →
      loadList (d :: rs) acc = loadList rs acc) ∧
    (∀ (d : Record) (rs : List Record) (acc : List (String × Item)),
      d.type = none → loadList (d :: rs) acc = .error "KeyError: type") ∧
    (∀ (rs : List Record) (m : List (String × Item)),
      load_from_file (.records rs) = .ok m →
      ∀ id : String, dictFind id m = lastWins (rs.filterMap goodPair) id none) := by
  refine ⟨⟨rfl, rfl⟩, ?_, ?_, ?_⟩
  · intro d rs acc t ht h1 h2 h3
    simp [loadList, parseRecord, ht, h1, h2, h3]
  · intro d rs acc ht
    simp [loadList, parseRecord, ht]
  · intro rs m h id
    have h2 := loadList_lastWins rs [] m h id
    simpa [dictFind] using h2

theorem load_from_file_spec_witness :
    load_from_file .absent = .ok [] ∧
    loadList [recU] [] = .ok [] ∧
    loadList [recNoType] [] = .error "KeyError: type" ∧
    (load_from_file (.records [recA1, recA2]) = .ok [("A", itApparel2)] ∧
      dictFind "A" [("A", itApparel2)] = some itApparel2) := by
  have h := load_from_file_spec
  refine ⟨h.1.1, ?_, h.2.2.1 recNoType [] [] rfl, ⟨by decide, ?_⟩⟩
  · have h2 := h.2.1 recU [] [] "Gadget" rfl (by decide) (by decide) (by decide)
    exact h2.trans rfl
  · have h4 := h.2.2.2 [recA1, recA2] [("A", itApparel2)] (by decide) "A"
    exact h4.trans (by decide)

/-- C9: `search_by_name` returns, in container iteration order, exactly
the `describe` strings of the items whose name contains the term
case-insensitively (the lowered name has the lowered term as a
contiguous substring, characterized by an explicit decomposition); in
particular the term `"milk"` matches the name `"Whole Milk"`. -/
theorem search_by_name_spec (today : Date) (term : String) (inv : Inventory) :
    (search_by_name today term inv =
      (inv.items.filter fun p => pyIn (pyLower term) (pyLower p.2.name)).mapM
        (fun p => describe today p.2)) ∧
    (∀ sub s : String, pyIn sub s = true ↔
      ∃ l r, s.toList = l ++ sub.toList ++ r) ∧
    pyIn (pyLower "milk") (pyLower "Whole Milk") = true := by
  refine ⟨?_, fun sub s => hasSubL_iff sub.toList s.toList, by decide⟩
  show searchList today term inv.items = _
  induction inv.items with
  | nil => rfl
  | cons p rest ih =>
      obtain ⟨k, v⟩ := p
      cases hb : pyIn (pyLower term) (pyLower v.name) with
      | false =>
          simp only [searchList, hb, Bool.false_eq_true, if_false, List.filter]
          exact ih
      | true =>
          simp only [searchList, hb, if_true, List.filter, List.mapM_cons]
          rw [ih]
          cases hd : describe today v with
          | error e => simp [hd, Bind.bind, Except.bind]
          | ok s =>
              cases hm : (rest.filter fun p => pyIn (pyLower term) (pyLower p.2.name)).mapM
                  (fun p => describe today p.2) with
              | error e2 => simp [hd, hm, Bind.bind, Except.bind, Functor.map, Except.map]
              | ok l2 => simp [hd, hm, Bind.bind, Except.bind, Functor.map, Except.map,
                  pure, Except.pure]

theorem search_by_name_spec_witness :
    search_by_name today0 "milk" invMilk =
      .ok ["[Food] Whole Milk | Expiry: 2030-01-01 (Fresh) | Price: $3/1 | Stock: 10"] := by
  have h := (search_by_name_spec today0 "milk" invMilk).1
  exact h.trans (by decide)

end CliInventory
